import Mathlib

set_option maxHeartbeats 1000000

namespace DeployInt

/-- Localization maps are JSON objects mapping locale codes to strings.
They are modelled as association lists; JavaScript objects cannot carry a
duplicate key, so lists produced from real values have pairwise distinct keys. -/
abbrev Loc := List (String × String)

/-- Lookup of a key in a localization object. -/
def lookupLoc (m : Loc) (k : String) : Option String :=
  (m.find? (fun p => p.1 == k)).map (fun p => p.2)

/-- Deep structural equality of two localization objects, as computed by the
fast-deep-equal library on plain string-valued objects: the two key sets have
the same size and every key of the first is present in the second with an equal
value. -/
def locEqual (a b : Loc) : Bool :=
  a.length == b.length && a.all (fun p => lookupLoc b p.1 == some p.2)

/-- A scalar choice value: the remote API allows string or numeric values, and
the source compares them with strict equality. -/
inductive ChoiceVal where
  | str (s : String)
  | num (n : Int)
deriving DecidableEq, Repr

/-- A name and value pair of a choice list, as in
APIApplicationCommandOptionChoice. -/
structure OptionChoice where
  name : String
  value : ChoiceVal
deriving DecidableEq, Repr

/-- An application command option as in APIApplicationCommandOption of
discord-api-types v10: the union of the per-kind interfaces is flattened into
one constructor whose kind-specific fields are optional, matching how the
source functions access them after runtime type-narrowing. The options field
holds the nested child sequence of a subcommand or subcommand group. -/
inductive CommandOption where
  | mk
    (name : String)
    (type : Nat)
    (description : String)
    (required : Option Bool)
    (name_localizations : Option Loc)
    (description_localizations : Option Loc)
    (autocomplete : Option Bool)
    (choices : Option (List OptionChoice))
    (options : Option (List CommandOption))
    (channel_types : Option (List Nat))
    (min_value : Option Int)
    (max_value : Option Int)
deriving Repr

def CommandOption.name : CommandOption → String
  | .mk n _ _ _ _ _ _ _ _ _ _ _ => n

def CommandOption.type : CommandOption → Nat
  | .mk _ t _ _ _ _ _ _ _ _ _ _ => t

def CommandOption.description : CommandOption → String
  | .mk _ _ d _ _ _ _ _ _ _ _ _ => d

def CommandOption.required : CommandOption → Option Bool
  | .mk _ _ _ r _ _ _ _ _ _ _ _ => r

def CommandOption.name_localizations : CommandOption → Option Loc
  | .mk _ _ _ _ nl _ _ _ _ _ _ _ => nl

def CommandOption.description_localizations : CommandOption → Option Loc
  | .mk _ _ _ _ _ dl _ _ _ _ _ _ => dl

def CommandOption.autocomplete : CommandOption → Option Bool
  | .mk _ _ _ _ _ _ ac _ _ _ _ _ => ac

def CommandOption.choices : CommandOption → Option (List OptionChoice)
  | .mk _ _ _ _ _ _ _ ch _ _ _ _ => ch

def CommandOption.options : CommandOption → Option (List CommandOption)
  | .mk _ _ _ _ _ _ _ _ os _ _ _ => os

def CommandOption.channel_types : CommandOption → Option (List Nat)
  | .mk _ _ _ _ _ _ _ _ _ ct _ _ => ct

def CommandOption.min_value : CommandOption → Option Int
  | .mk _ _ _ _ _ _ _ _ _ _ mn _ => mn

def CommandOption.max_value : CommandOption → Option Int
  | .mk _ _ _ _ _ _ _ _ _ _ _ mx => mx

/-- Type predicate isChoicesOption of Util.ts: String (3), Integer (4) or
Number (10). -/
def isChoicesOption (o : CommandOption) : Bool :=
  o.type == 3 || o.type == 4 || o.type == 10

/-- Type predicate isSubcommandOption of Util.ts: SubcommandGroup (2) or
Subcommand (1). -/
def isSubcommandOption (o : CommandOption) : Bool :=
  o.type == 2 || o.type == 1

/-- Type predicate isChannelOption of Util.ts: Channel (7). -/
def isChannelOption (o : CommandOption) : Bool :=
  o.type == 7

/-- Type predicate isNumericalOption of Util.ts: Integer (4) or Number (10). -/
def isNumericalOption (o : CommandOption) : Bool :=
  o.type == 4 || o.type == 10

/-- The disjunction of early-return mismatch conditions at the top of
optionEquals: name, type, description, required with a default of false, and
the two localization maps with a missing map treated as the empty object. -/
def optionBaseMismatch (existing opt : CommandOption) : Bool :=
  opt.name != existing.name ||
  opt.type != existing.type ||
  opt.description != existing.description ||
  (opt.required.getD false) != (existing.required.getD false) ||
  !(locEqual (existing.name_localizations.getD []) (opt.name_localizations.getD [])) ||
  !(locEqual (existing.description_localizations.getD []) (opt.description_localizations.getD []))

/-- The choice-bearing branch of optionEquals: the autocomplete flags are
compared strictly, the optional choice lists must have the same optional
length, and when both are present every existing choice must be found in the
other list by name with a strictly equal value. -/
def choicesCheck (existing opt : CommandOption) : Bool :=
  if existing.autocomplete != opt.autocomplete then false
  else if (existing.choices.map List.length) != (opt.choices.map List.length) then false
  else
    match existing.choices, opt.choices with
    | some existingChoices, some optionChoices =>
      existingChoices.all (fun choice =>
        match optionChoices.find? (fun optChoice => optChoice.name == choice.name) with
        | none => false
        | some foundChoice => foundChoice.value == choice.value)
    | _, _ => true

/-- The channel branch of optionEquals: the optional channel-type lists must
have the same optional length and, when both are present, every existing entry
must be contained in the other list. -/
def channelCheck (existing opt : CommandOption) : Bool :=
  if (existing.channel_types.map List.length) != (opt.channel_types.map List.length) then false
  else
    match existing.channel_types, opt.channel_types with
    | some existingTypes, some optionTypes =>
      existingTypes.all (fun t => optionTypes.contains t)
    | _, _ => true

/-- The trailing channel and numeric checks of optionEquals, reached when the
subcommand branch did not return. -/
def channelNumericTail (existing opt : CommandOption) : Bool :=
  if isChannelOption existing && isChannelOption opt && !(channelCheck existing opt) then false
  else if isNumericalOption existing && isNumericalOption opt &&
      ((existing.min_value != opt.min_value) || (existing.max_value != opt.max_value)) then false
  else true

mutual

/-- Translation of optionEquals from src/lib/Util.ts: the early mismatch
checks, then the choice-bearing branch, then the subcommand branch which
recurses into the child sequences and returns directly when both child
sequences are present, both being present exactly when both are non-absent
since an empty array is truthy, and otherwise the channel and numeric
checks. -/
def optionEquals (existing opt : CommandOption) : Bool :=
  if optionBaseMismatch existing opt then false
  else if isChoicesOption existing && isChoicesOption opt && !(choicesCheck existing opt) then false
  else if isSubcommandOption existing && isSubcommandOption opt then
    if (existing.options.map List.length) != (opt.options.map List.length) then false
    else if existing.options.isSome && opt.options.isSome then
      optionsEqual (existing.options.getD []) (opt.options.getD [])
    else channelNumericTail existing opt
  else channelNumericTail existing opt
termination_by 2 * sizeOf existing + 2
decreasing_by
  have hlt : sizeOf (existing.options.getD []) < sizeOf existing := by
    cases existing with
    | mk n t d r nl dl ac ch os ct mn mx =>
      cases os with
      | none =>
        simp [CommandOption.options]
        try omega
      | some l =>
        simp [CommandOption.options]
        try omega
  omega

/-- Translation of optionsEqual from src/lib/Util.ts: reject on differing
lengths, then require every existing option to be matched by name in the other
list and be equal to its first name match. -/
def optionsEqual (existing options : List CommandOption) : Bool :=
  if existing.length != options.length then false
  else optionsEqualAll existing options
termination_by 2 * sizeOf existing + 2
decreasing_by
  omega

/-- The per-element loop of optionsEqual. -/
def optionsEqualAll : List CommandOption → List CommandOption → Bool
  | [], _ => true
  | e :: es, opts =>
    match opts.find? (fun o => o.name == e.name) with
    | none => false
    | some foundOption => optionEquals e foundOption && optionsEqualAll es opts
termination_by l _ => 2 * sizeOf l + 1
decreasing_by
  all_goals try simp
  all_goals omega

end

/-- A remote command as in APIApplicationCommand: the locally declared fields
plus the server-assigned id, application id, version and optional owning guild
id. -/
structure APIApplicationCommand where
  id : String
  application_id : String
  version : String
  name : String
  type : Nat
  description : String
  options : Option (List CommandOption)
  default_member_permissions : Option String
  dm_permission : Option Bool
  guild_id : Option String
  name_localizations : Option Loc
  description_localizations : Option Loc
deriving Repr

/-- A locally declared command definition as in
RESTPostAPIApplicationCommandsJSONBody: description and type may be absent for
some command kinds, and the remote API later assigns defaults. -/
structure CommandDefinition where
  name : String
  type : Option Nat
  description : Option String
  options : Option (List CommandOption)
  default_member_permissions : Option String
  dm_permission : Option Bool
  name_localizations : Option Loc
  description_localizations : Option Loc
deriving Repr

/-- Translation of commandEquals from src/lib/Util.ts. The description check
only runs when the desired definition carries a description field, the desired
type defaults to ChatInput (1), the optional option lists are compared through
their optional lengths, dm permission is only compared for commands with no
guild id and defaults to true on the desired side, and the localization maps
are deep-compared with a missing map treated as the empty object. -/
def commandEquals (existing : APIApplicationCommand) (command : CommandDefinition) : Bool :=
  if command.name != existing.name ||
     (match command.description with
      | some d => d != existing.description
      | none => false) ||
     (command.type.getD 1) != existing.type ||
     (command.options.map List.length) != (existing.options.map List.length) ||
     command.default_member_permissions != existing.default_member_permissions ||
     (existing.guild_id.isNone && (existing.dm_permission != some (command.dm_permission.getD true))) ||
     !(locEqual (existing.name_localizations.getD []) (command.name_localizations.getD [])) ||
     !(locEqual (existing.description_localizations.getD []) (command.description_localizations.getD []))
  then false
  else
    match command.options, existing.options with
    | some commandOpts, some existingOpts => optionsEqual existingOpts commandOpts
    | _, _ => true

/-- An error value returned by the remote API client, carrying the integer
status code the orchestrator classifies on; the message field only serves to
distinguish error values. -/
structure ApiError where
  status : Nat
  message : String
deriving DecidableEq, Repr

/-- A command that failed to deploy, as in the ErroredCommand interface. -/
structure ErroredCommand where
  command : CommandDefinition
  error : ApiError
  name : String
deriving Repr

/-- A command that was skipped, as in the SkippedCommand interface. -/
structure SkippedCommand where
  command : CommandDefinition
  existing : Option APIApplicationCommand
  id : Option String
  name : String
deriving Repr

/-- The per-target result, as in the SingleDeployResponse interface. -/
structure SingleDeployResponse where
  bulkError : Option ApiError
  commands : List APIApplicationCommand
  errored : List ErroredCommand
  skipped : List SkippedCommand
deriving Repr

/-- An observable remote API operation: fetching the command list of a route,
creating one command, or bulk-overwriting all commands of a route. The guild
id is none for the global route. -/
inductive ApiCall where
  | list (guildId : Option String)
  | create (guildId : Option String) (command : CommandDefinition)
  | overwrite (guildId : Option String) (commands : List CommandDefinition)
deriving Repr

/-- The route an API call is addressed to. -/
def ApiCall.route : ApiCall → Option String
  | .list g => g
  | .create g _ => g
  | .overwrite g _ => g

/-- The remote API client at its interface boundary: the three operations the
deploy code performs through the rest client, keyed by the route they hit.
Responses are fixed per run, which models the sequential single-run semantics
of the source. -/
structure Api where
  listCommands : Option String → List APIApplicationCommand
  createCommand : Option String → CommandDefinition → Except ApiError APIApplicationCommand
  overwriteCommands : Option String → List CommandDefinition →
    Except ApiError (List APIApplicationCommand)

/-- The fetch-and-compare step of the incremental loop of
deploySingleDestination: with force no existing command is considered;
otherwise the fetched list is searched for a command matching on effective
type, with the desired type defaulting to ChatInput (1), and name, and the
match is kept only when commandEquals accepts it. -/
def findExistingEqual (force : Bool) (existingCommands : List APIApplicationCommand)
    (command : CommandDefinition) : Option APIApplicationCommand :=
  if force then none
  else
    match existingCommands.find? (fun definition =>
        (command.type.getD 1) == definition.type && command.name == definition.name) with
    | some existing => if commandEquals existing command then some existing else none
    | none => none

/-- The per-command loop of deploySingleDestination: each desired command is
either recorded as skipped, or created through the API; a failure with status
401, 403 or 404 is thrown immediately, which abandons the accumulated lists,
and any other failure is appended to the errored list. The second component is
the trace of API calls issued. -/
def deployLoop (api : Api) (guildId : Option String) (force : Bool)
    (existingCommands : List APIApplicationCommand) :
    List CommandDefinition → List APIApplicationCommand → List ErroredCommand →
    List SkippedCommand → Except ApiError SingleDeployResponse × List ApiCall
  | [], added, errored, skipped => (.ok ⟨none, added, errored, skipped⟩, [])
  | command :: rest, added, errored, skipped =>
    match findExistingEqual force existingCommands command with
    | some existing =>
      deployLoop api guildId force existingCommands rest added errored
        (skipped ++ [⟨command, some existing, some existing.id, existing.name⟩])
    | none =>
      match api.createCommand guildId command with
      | .error e =>
        if e.status == 401 || e.status == 403 || e.status == 404 then
          (.error e, [.create guildId command])
        else
          let r := deployLoop api guildId force existingCommands rest added
            (errored ++ [⟨command, e, command.name⟩]) skipped
          (r.1, .create guildId command :: r.2)
      | .ok result =>
        let r := deployLoop api guildId force existingCommands rest
          (added ++ [result]) errored skipped
        (r.1, .create guildId command :: r.2)

/-- Translation of deploySingleDestination from Deploy.ts: a dry run skips
every command with no API call; bulk mode issues one overwrite call whose
failure is rethrown; otherwise the incremental loop runs, with the fetch of
existing commands performed only when force is off. The result pairs the
thrown-or-returned response with the trace of API calls issued. -/
def deploySingleDestination (api : Api) (commands : List CommandDefinition)
    (force bulk dryRun : Bool) (guildId : Option String) :
    Except ApiError SingleDeployResponse × List ApiCall :=
  if dryRun then
    (.ok ⟨none, [], [], commands.map (fun command => ⟨command, none, none, command.name⟩)⟩, [])
  else if bulk then
    match api.overwriteCommands guildId commands with
    | .ok result => (.ok ⟨none, result, [], []⟩, [.overwrite guildId commands])
    | .error e => (.error e, [.overwrite guildId commands])
  else if force then
    deployLoop api guildId true [] commands [] [] []
  else
    let existingCommands := api.listCommands guildId
    let r := deployLoop api guildId false existingCommands commands [] [] []
    (r.1, .list guildId :: r.2)

/-- A command with its target bindings, as in ApplicationCommandConfig. -/
structure ApplicationCommandConfig where
  command : CommandDefinition
  global : Bool
  guildIds : Option (List String)
deriving Repr

/-- Appends a command to the bucket of one guild id, creating the bucket at
the end when the id is new: the insertion-order semantics of the JavaScript
Map used by separateGlobalGuild. -/
def addGuildCommand (m : List (String × List CommandDefinition)) (id : String)
    (command : CommandDefinition) : List (String × List CommandDefinition) :=
  match m with
  | [] => [(id, [command])]
  | (k, cs) :: rest =>
    if k == id then (k, cs ++ [command]) :: rest
    else (k, cs) :: addGuildCommand rest id command

/-- Translation of separateGlobalGuild from Deploy.ts: commands flagged global
go to the global list in input order, and each command is appended to the
bucket of every guild id it declares. -/
def separateGlobalGuild (commands : List ApplicationCommandConfig) :
    List CommandDefinition × List (String × List CommandDefinition) :=
  commands.foldl (fun acc config =>
    let globalCommands := if config.global then acc.1 ++ [config.command] else acc.1
    let guildCommands :=
      if (config.guildIds.getD []).length != 0 then
        (config.guildIds.getD []).foldl (fun m id => addGuildCommand m id config.command) acc.2
      else acc.2
    (globalCommands, guildCommands)) ([], [])

/-- The aggregated report, as in the DeployResponse interface. -/
structure DeployResponse where
  dev : Option String
  error : Option ApiError
  global : Option SingleDeployResponse
  guilds : List (String × SingleDeployResponse)
deriving Repr

/-- Sets the entry of one guild id in the guilds map, with the
insertion-order semantics of the JavaScript Map. -/
def setGuild (m : List (String × SingleDeployResponse)) (id : String)
    (r : SingleDeployResponse) : List (String × SingleDeployResponse) :=
  match m with
  | [] => [(id, r)]
  | (k, v) :: rest => if k == id then (k, r) :: rest else (k, v) :: setGuild rest id r

/-- The command configurations grouped by command type, as read from the
CommandMap by deploy for the three application command types. -/
structure CommandMap where
  chatInput : List ApplicationCommandConfig
  user : List ApplicationCommandConfig
  message : List ApplicationCommandConfig
deriving Repr

/-- The flat command list deploy builds from the three type buckets. -/
def allCommandsOf (commands : CommandMap) : List ApplicationCommandConfig :=
  commands.chatInput ++ commands.user ++ commands.message

/-- The guild loop of deploy: each guild target is deployed in turn; a
failure with status 401 stops the whole run by returning the report so far
with its error field set, any other failure degrades only that guild to a
single bulk-error entry, and a success is recorded as that guild entry. -/
def deployGuilds (api : Api) (force bulk dryRun : Bool) (response : DeployResponse) :
    List (String × List CommandDefinition) → DeployResponse × List ApiCall
  | [] => (response, [])
  | (guildId, guildCommands) :: rest =>
    let d := deploySingleDestination api guildCommands force bulk dryRun (some guildId)
    match d.1 with
    | .error e =>
      if e.status == 401 then ({ response with error := some e }, d.2)
      else
        let r := deployGuilds api force bulk dryRun
          { response with guilds := setGuild response.guilds guildId ⟨some e, [], [], []⟩ } rest
        (r.1, d.2 ++ r.2)
    | .ok deployed =>
      let r := deployGuilds api force bulk dryRun
        { response with guilds := setGuild response.guilds guildId deployed } rest
      (r.1, d.2 ++ r.2)

/-- Translation of deploy from Deploy.ts: nothing to deploy yields no report;
dev mode sends every command to the single dev guild and classifies a failure
with status 401, 403 or 404 as run-fatal and any other failure as that one
guild bulk-error; normal mode deploys the global bucket first, where any of
the statuses 401, 403 and 404 is run-fatal and any other failure degrades the
global result to a bulk-error, and then runs the guild loop. Credentials and
the application id only shape the route strings and are not modelled. -/
def deploy (api : Api) (commands : CommandMap) (devGuildId : Option String)
    (bulkOverwrite dryRun force : Bool) : Option DeployResponse × List ApiCall :=
  let allCommands := allCommandsOf commands
  if allCommands.length == 0 then (none, [])
  else
    match devGuildId with
    | some dev =>
      let d := deploySingleDestination api (allCommands.map (fun c => c.command))
        force bulkOverwrite dryRun (some dev)
      match d.1 with
      | .error e =>
        if e.status == 401 || e.status == 403 || e.status == 404 then
          (some ⟨some dev, some e, none, []⟩, d.2)
        else (some ⟨some dev, none, none, [(dev, ⟨some e, [], [], []⟩)]⟩, d.2)
      | .ok deployed => (some ⟨some dev, none, none, [(dev, deployed)]⟩, d.2)
    | none =>
      let sep := separateGlobalGuild allCommands
      if sep.1.length != 0 then
        let d := deploySingleDestination api sep.1 force bulkOverwrite dryRun none
        match d.1 with
        | .error e =>
          if e.status == 401 || e.status == 403 || e.status == 404 then
            (some ⟨none, some e, none, []⟩, d.2)
          else
            let r := deployGuilds api force bulkOverwrite dryRun
              ⟨none, none, some ⟨some e, [], [], []⟩, []⟩ sep.2
            (some r.1, d.2 ++ r.2)
        | .ok deployed =>
          let r := deployGuilds api force bulkOverwrite dryRun
            ⟨none, none, some deployed, []⟩ sep.2
          (some r.1, d.2 ++ r.2)
      else
        let r := deployGuilds api force bulkOverwrite dryRun ⟨none, none, none, []⟩ sep.2
        (some r.1, r.2)

/-- Pairwise distinctness of a string key computed by a function, used to
express that an association list or a named list has no duplicate key. Lists
obtained from JavaScript objects always satisfy it for their keys; duplicate
names in option or choice lists are declared undefined behavior. -/
def nodupBy {α : Type} (f : α → String) : List α → Bool
  | [] => true
  | x :: xs => xs.all (fun y => f y != f x) && nodupBy f xs

mutual

/-- Well-formedness of one option: its localization objects have distinct
keys, its choice names are distinct, and its child options are recursively
well-formed with distinct names. -/
def wfOption (o : CommandOption) : Bool :=
  nodupBy Prod.fst (o.name_localizations.getD []) &&
  nodupBy Prod.fst (o.description_localizations.getD []) &&
  nodupBy OptionChoice.name (o.choices.getD []) &&
  wfOptionList (o.options.getD [])
termination_by 2 * sizeOf o + 2
decreasing_by
  have hlt : sizeOf (o.options.getD []) < sizeOf o := by
    cases o with
    | mk n t d r nl dl ac ch os ct mn mx =>
      cases os with
      | none =>
        simp [CommandOption.options]
        try omega
      | some l =>
        simp [CommandOption.options]
        try omega
  omega

/-- Well-formedness of an option sequence: distinct option names and every
member well-formed. -/
def wfOptionList (l : List CommandOption) : Bool :=
  nodupBy CommandOption.name l && wfOptionAll l
termination_by 2 * sizeOf l + 2
decreasing_by
  omega

/-- The member loop of wfOptionList. -/
def wfOptionAll : List CommandOption → Bool
  | [] => true
  | o :: os => wfOption o && wfOptionAll os
termination_by l => 2 * sizeOf l + 1
decreasing_by
  all_goals try simp
  all_goals omega

end

/-- Well-formedness of a command definition: its localization objects have
distinct keys and its option tree is well-formed. -/
def wfCommandDefinition (command : CommandDefinition) : Bool :=
  nodupBy Prod.fst (command.name_localizations.getD []) &&
  nodupBy Prod.fst (command.description_localizations.getD []) &&
  wfOptionList (command.options.getD [])

/-- The round-trip construction of the testable property in the spec: a
remote command built from a definition by applying the remote-side defaults,
the type defaulting to ChatInput (1) and dm permission defaulting to true,
with all other declared fields copied verbatim, no owning guild, and arbitrary
server-assigned identifier, application id and version. The remote side
always stores a description string, so an absent description is stored as the
empty string, which the comparator never reads in that case. -/
def remoteOfDefinition (id applicationId version : String)
    (command : CommandDefinition) : APIApplicationCommand :=
  ⟨id, applicationId, version, command.name, command.type.getD 1,
   command.description.getD "", command.options, command.default_member_permissions,
   some (command.dm_permission.getD true), none, command.name_localizations,
   command.description_localizations⟩

/-- A first option named target. -/
def optC1a : CommandOption :=
  .mk "target" 3 "first description" none none none none none none none none none

/-- A second option also named target but with another description. -/
def optC1b : CommandOption :=
  .mk "target" 3 "second description" none none none none none none none none none

/-- A command definition carrying two options with the same name, which the
specification declares undefined behavior. -/
def cmdC1dup : CommandDefinition :=
  ⟨"ping", none, some "checks latency", some [optC1a, optC1b], none, none, none, none⟩

/-- A sample option with a required flag, choices and a localization map. -/
def optC1 : CommandOption :=
  .mk "target" 3 "who to ping" (some true) (some [("fr", "cible")]) none
    none (some [⟨"self", .str "me"⟩, ⟨"all", .str "everyone"⟩]) none none none none

/-- A sample well-formed command definition. -/
def cmdC1 : CommandDefinition :=
  ⟨"ping", none, some "checks latency", some [optC1], some "0", none,
   some [("fr", "sonde")], none⟩

/-- A remote command carrying an empty options array. -/
def exC4 : APIApplicationCommand :=
  ⟨"100", "200", "300", "probe", 1, "a test command", some [], none,
   some true, none, none, none⟩

/-- A desired command identical to exC4 on every compared field except that
its options field is absent rather than an empty array. -/
def cmdC4 : CommandDefinition :=
  ⟨"probe", some 1, some "a test command", none, none, none, none, none⟩

/-- A remote channel option whose permitted types list holds a duplicate. -/
def exO5 : CommandOption :=
  .mk "where" 7 "a channel" none none none none none none (some [0, 0]) none none

/-- A desired channel option agreeing with exO5 except on the permitted
types list. -/
def dO5 : CommandOption :=
  .mk "where" 7 "a channel" none none none none none none (some [0, 2]) none none

/-- A remote channel option with duplicate-free permitted types. -/
def exW5 : CommandOption :=
  .mk "where" 7 "a channel" none none none none none none (some [0, 2]) none none

/-- A desired channel option with the same permitted types in another order. -/
def dW5 : CommandOption :=
  .mk "where" 7 "a channel" none none none none none none (some [2, 0]) none none

/-- A remote string option whose autocomplete field is absent. -/
def exO6 : CommandOption :=
  .mk "query" 3 "the search text" none none none none none none none none none

/-- A desired string option identical to exO6 except that autocomplete is
explicitly false. -/
def dO6 : CommandOption :=
  .mk "query" 3 "the search text" none none none (some false) none none none none none

/-- A sample command definition bound to the global target. -/
def cmdW2 : CommandDefinition := ⟨"w2", none, some "sample", none, none, none, none, none⟩

/-- The configuration binding cmdW2 to the global target. -/
def cfgW2 : ApplicationCommandConfig := ⟨cmdW2, true, none⟩

/-- A command map holding the one global command cmdW2. -/
def cmW2 : CommandMap := ⟨[cfgW2], [], []⟩

/-- An unauthorized error. -/
def errW2a : ApiError := ⟨401, "unauthorized"⟩

/-- A not-found error. -/
def errW2c : ApiError := ⟨404, "unknown guild"⟩

/-- An API whose every mutating operation fails with status 401. -/
def apiW2 : Api := ⟨fun _ => [], fun _ _ => .error errW2a, fun _ _ => .error errW2a⟩

/-- An API whose every mutating operation fails with status 404. -/
def apiW2c : Api := ⟨fun _ => [], fun _ _ => .error errW2c, fun _ _ => .error errW2c⟩

/-- A sample command definition for the bulk failure scenario. -/
def cmdW3 : CommandDefinition := ⟨"w3", none, some "sample", none, none, none, none, none⟩

/-- An internal server error, a status the orchestrator treats as local. -/
def errW3 : ApiError := ⟨500, "server error"⟩

/-- An API whose bulk overwrite fails with status 500. -/
def apiW3 : Api := ⟨fun _ => [], fun _ _ => .error errW3, fun _ _ => .error errW3⟩

/-- A sample command definition for the force scenario. -/
def cmdC8 : CommandDefinition := ⟨"alpha", none, some "first", none, none, none, none, none⟩

/-- The remote command the sample API returns for a created definition. -/
def createdC8 (command : CommandDefinition) : APIApplicationCommand :=
  ⟨"900", "901", "902", command.name, command.type.getD 1, command.description.getD "",
   command.options, command.default_member_permissions, some true, none,
   command.name_localizations, command.description_localizations⟩

/-- An API whose create always succeeds and whose fetch reports an existing
remote command identical to the deployed definition. -/
def apiC8 : Api :=
  ⟨fun _ => [createdC8 cmdC8], fun _ command => .ok (createdC8 command), fun _ _ => .ok []⟩

/-- A first sample command for the lost-progress scenario. -/
def cmdW9a : CommandDefinition := ⟨"w9a", none, some "first", none, none, none, none, none⟩

/-- A second sample command for the lost-progress scenario. -/
def cmdW9b : CommandDefinition := ⟨"w9b", none, some "second", none, none, none, none, none⟩

/-- A remote command standing for progress already made in the loop. -/
def remW9 : APIApplicationCommand :=
  ⟨"700", "701", "702", "w9prior", 1, "already added", none, none, some true, none, none, none⟩

/-- A skipped entry standing for progress already made in the loop. -/
def skW9 : SkippedCommand := ⟨cmdW9a, some remW9, some "700", "w9prior"⟩

/-- A missing-access error. -/
def errW9 : ApiError := ⟨403, "missing access"⟩

/-- An API whose create fails with status 403. -/
def apiW9 : Api := ⟨fun _ => [], fun _ _ => .error errW9, fun _ _ => .error errW9⟩

/-- C7: a dry run issues no remote API operation and returns a result whose
skipped list has exactly one entry per input command, carrying the command
and its name and no matched remote command or id, with empty commands and
errored lists, for every command list, flag combination and target. -/
theorem dryRun_no_remote_calls (api : Api) (commands : List CommandDefinition)
    (force bulk : Bool) (guildId : Option String) :
    deploySingleDestination api commands force bulk true guildId
      = (.ok ⟨none, [], [],
          commands.map (fun command => ⟨command, none, none, command.name⟩)⟩, []) := by
  rfl

/-- C10: commandEquals never reads the server-assigned id, application id or
version: replacing them by arbitrary values leaves its result unchanged
against every desired command definition. -/
theorem commandEquals_ignores_server_fields (existing : APIApplicationCommand)
    (i a v : String) (command : CommandDefinition) :
    commandEquals { existing with id := i, application_id := a, version := v } command
      = commandEquals existing command := by
  cases existing
  rfl

/-- C4 counterexample: a desired command with no options field and a remote
command with an empty options array, equal on every other compared field, are
judged unequal by commandEquals, refuting the claim that the length sub-check
treats an absent option sequence as length zero. -/
theorem absent_options_vs_empty_counterexample :
    cmdC4.options = none ∧ exC4.options = some [] ∧
    cmdC4.name = exC4.name ∧ cmdC4.description = some exC4.description ∧
    cmdC4.type.getD 1 = exC4.type ∧
    cmdC4.default_member_permissions = exC4.default_member_permissions ∧
    exC4.dm_permission = some (cmdC4.dm_permission.getD true) ∧
    cmdC4.name_localizations = exC4.name_localizations ∧
    cmdC4.description_localizations = exC4.description_localizations ∧
    commandEquals exC4 cmdC4 = false := by
  refine ⟨rfl, rfl, rfl, rfl, rfl, rfl, rfl, rfl, rfl, ?_⟩
  rfl

/-- C4 amended: the option-sequence length sub-check of commandEquals
compares the optional lengths, so an absent option sequence matches only an
absent one: a desired command with no options field and a remote command with
an empty options array are judged unequal, whatever the other fields hold. -/
theorem absent_options_vs_empty_not_equal (existing : APIApplicationCommand)
    (command : CommandDefinition) (h1 : command.options = none)
    (h2 : existing.options = some []) : commandEquals existing command = false := by
  have hb : (command.options.map List.length != existing.options.map List.length) = true := by
    rw [h1, h2]; rfl
  simp only [commandEquals, hb, Bool.or_true, Bool.true_or]
  simp

/-- C4 witness: the amended statement applied to the concrete pair of the
counterexample. -/
theorem absent_options_vs_empty_witness :
    cmdC4.options = none ∧ exC4.options = some [] ∧ commandEquals exC4 cmdC4 = false :=
  ⟨rfl, rfl, absent_options_vs_empty_not_equal exC4 cmdC4 rfl rfl⟩

theorem deployLoop_route (api : Api) (guildId : Option String) (force : Bool)
    (existingCommands : List APIApplicationCommand) :
    ∀ (commands : List CommandDefinition) (added : List APIApplicationCommand)
      (errored : List ErroredCommand) (skipped : List SkippedCommand) (call : ApiCall),
      call ∈ (deployLoop api guildId force existingCommands commands added errored skipped).2 →
      call.route = guildId := by
  intro commands
  induction commands with
  | nil =>
    intro added errored skipped call h
    simp [deployLoop] at h
  | cons c rest ih =>
    intro added errored skipped call h
    cases hf : findExistingEqual force existingCommands c with
    | some ex =>
      simp only [deployLoop, hf] at h
      exact ih _ _ _ call h
    | none =>
      cases hc : api.createCommand guildId c with
      | error e =>
        simp only [deployLoop, hf, hc] at h
        by_cases hs : (e.status == 401 || e.status == 403 || e.status == 404) = true
        · rw [if_pos hs] at h
          simp at h
          subst h
          rfl
        · rw [if_neg hs] at h
          simp at h
          rcases h with h | h
          · subst h; rfl
          · exact ih _ _ _ call h
      | ok result =>
        simp only [deployLoop, hf, hc] at h
        simp at h
        rcases h with h | h
        · subst h; rfl
        · exact ih _ _ _ call h

theorem deploySingleDestination_route (api : Api) (commands : List CommandDefinition)
    (force bulk dryRun : Bool) (guildId : Option String) (call : ApiCall)
    (h : call ∈ (deploySingleDestination api commands force bulk dryRun guildId).2) :
    call.route = guildId := by
  by_cases hd : dryRun = true
  · subst hd
    simp [deploySingleDestination] at h
  · rw [Bool.not_eq_true] at hd
    subst hd
    by_cases hb : bulk = true
    · subst hb
      simp only [deploySingleDestination] at h
      cases ho : api.overwriteCommands guildId commands with
      | ok result => rw [ho] at h; simp at h; subst h; rfl
      | error e => rw [ho] at h; simp at h; subst h; rfl
    · rw [Bool.not_eq_true] at hb
      subst hb
      by_cases hfo : force = true
      · subst hfo
        simp only [deploySingleDestination] at h
        exact deployLoop_route api guildId true [] commands [] [] [] call h
      · rw [Bool.not_eq_true] at hfo
        subst hfo
        simp only [deploySingleDestination] at h
        simp at h
        rcases h with h | h
        · subst h; rfl
        · exact deployLoop_route api guildId false (api.listCommands guildId)
            commands [] [] [] call h

/-- C2: fatal-error asymmetry of deploy in normal mode. First, a failure with
status 401, 403 or 404 while deploying the global target makes deploy return
at once with the error field of the report set, an empty guilds map, and a
call trace that only ever touched the global route, so no guild target was
attempted. Second, in the guild loop a status 401 failure returns at once
with the error field set on the report accumulated so far, no entry for the
failing guild, and a trace that only touched that guild, so the remaining
guilds are unattempted. Third, a status 403 or 404 failure on a guild only
records that guild entry as a lone bulk-error with empty commands, skipped
and errored lists, and the loop continues with the remaining guilds. -/
theorem deploy_fatal_error_asymmetry :
    (∀ (api : Api) (commands : CommandMap) (bulkOverwrite dryRun force : Bool) (e : ApiError),
      (allCommandsOf commands).length ≠ 0 →
      (separateGlobalGuild (allCommandsOf commands)).1.length ≠ 0 →
      (deploySingleDestination api (separateGlobalGuild (allCommandsOf commands)).1
          force bulkOverwrite dryRun none).1 = .error e →
      (e.status = 401 ∨ e.status = 403 ∨ e.status = 404) →
      deploy api commands none bulkOverwrite dryRun force
        = (some ⟨none, some e, none, []⟩,
           (deploySingleDestination api (separateGlobalGuild (allCommandsOf commands)).1
             force bulkOverwrite dryRun none).2) ∧
      ∀ call ∈ (deploy api commands none bulkOverwrite dryRun force).2, call.route = none) ∧
    (∀ (api : Api) (force bulk dryRun : Bool) (response : DeployResponse)
        (guildId : String) (guildCommands : List CommandDefinition)
        (rest : List (String × List CommandDefinition)) (e : ApiError),
      (deploySingleDestination api guildCommands force bulk dryRun (some guildId)).1
        = .error e →
      e.status = 401 →
      deployGuilds api force bulk dryRun response ((guildId, guildCommands) :: rest)
        = ({ response with error := some e },
           (deploySingleDestination api guildCommands force bulk dryRun (some guildId)).2) ∧
      ∀ call ∈ (deployGuilds api force bulk dryRun response
          ((guildId, guildCommands) :: rest)).2, call.route = some guildId) ∧
    (∀ (api : Api) (force bulk dryRun : Bool) (response : DeployResponse)
        (guildId : String) (guildCommands : List CommandDefinition)
        (rest : List (String × List CommandDefinition)) (e : ApiError),
      (deploySingleDestination api guildCommands force bulk dryRun (some guildId)).1
        = .error e →
      (e.status = 403 ∨ e.status = 404) →
      deployGuilds api force bulk dryRun response ((guildId, guildCommands) :: rest)
        = ((deployGuilds api force bulk dryRun
              { response with guilds := setGuild response.guilds guildId ⟨some e, [], [], []⟩ }
              rest).1,
           (deploySingleDestination api guildCommands force bulk dryRun (some guildId)).2 ++
           (deployGuilds api force bulk dryRun
              { response with guilds := setGuild response.guilds guildId ⟨some e, [], [], []⟩ }
              rest).2)) := by
  refine ⟨?_, ?_, ?_⟩
  · intro api commands bulkOverwrite dryRun force e h0 hg hd hs
    have h0' : ((allCommandsOf commands).length == 0) = false := by
      simpa using h0
    have hg' : ((separateGlobalGuild (allCommandsOf commands)).1.length != 0) = true := by
      simpa using hg
    have hs' : (e.status == 401 || e.status == 403 || e.status == 404) = true := by
      rcases hs with h | h | h <;> simp [h]
    have heq : deploy api commands none bulkOverwrite dryRun force
        = (some ⟨none, some e, none, []⟩,
           (deploySingleDestination api (separateGlobalGuild (allCommandsOf commands)).1
             force bulkOverwrite dryRun none).2) := by
      simp only [deploy, h0', hg', hd, hs']
      simp
    refine ⟨heq, ?_⟩
    intro call hc
    rw [heq] at hc
    exact deploySingleDestination_route api _ force bulkOverwrite dryRun none call hc
  · intro api force bulk dryRun response guildId guildCommands rest e hd hs
    have hs' : (e.status == 401) = true := by simp [hs]
    have heq : deployGuilds api force bulk dryRun response ((guildId, guildCommands) :: rest)
        = ({ response with error := some e },
           (deploySingleDestination api guildCommands force bulk dryRun (some guildId)).2) := by
      simp only [deployGuilds, hd, hs']
      simp
    refine ⟨heq, ?_⟩
    intro call hc
    rw [heq] at hc
    exact deploySingleDestination_route api guildCommands force bulk dryRun
      (some guildId) call hc
  · intro api force bulk dryRun response guildId guildCommands rest e hd hs
    have hs' : (e.status == 401) = false := by
      rcases hs with h | h <;> simp [h]
    simp only [deployGuilds, hd, hs']
    simp

/-- C2 witness: the three parts of the asymmetry applied to concrete runs in
bulk mode: a global 401 aborts the run, a guild 401 aborts the loop with the
report so far, and a guild 404 records a bulk-error entry and continues. -/
theorem deploy_fatal_error_asymmetry_witness :
    (deploy apiW2 cmW2 none true false false
       = (some ⟨none, some errW2a, none, []⟩,
          (deploySingleDestination apiW2 (separateGlobalGuild (allCommandsOf cmW2)).1
            false true false none).2) ∧
     ∀ call ∈ (deploy apiW2 cmW2 none true false false).2, call.route = none) ∧
    (deployGuilds apiW2 false true false ⟨none, none, none, []⟩ [("g1", [cmdW2])]
       = ({ (⟨none, none, none, []⟩ : DeployResponse) with error := some errW2a },
          (deploySingleDestination apiW2 [cmdW2] false true false (some "g1")).2) ∧
     ∀ call ∈ (deployGuilds apiW2 false true false ⟨none, none, none, []⟩
         [("g1", [cmdW2])]).2, call.route = some "g1") ∧
    (deployGuilds apiW2c false true false ⟨none, none, none, []⟩
        [("g1", [cmdW2]), ("g2", [cmdW2])]
       = ((deployGuilds apiW2c false true false
             { (⟨none, none, none, []⟩ : DeployResponse) with
                guilds := setGuild (⟨none, none, none, []⟩ : DeployResponse).guilds "g1"
                  ⟨some errW2c, [], [], []⟩ }
             [("g2", [cmdW2])]).1,
          (deploySingleDestination apiW2c [cmdW2] false true false (some "g1")).2 ++
          (deployGuilds apiW2c false true false
             { (⟨none, none, none, []⟩ : DeployResponse) with
                guilds := setGuild (⟨none, none, none, []⟩ : DeployResponse).guilds "g1"
                  ⟨some errW2c, [], [], []⟩ }
             [("g2", [cmdW2])]).2)) :=
  ⟨deploy_fatal_error_asymmetry.1 apiW2 cmW2 true false false errW2a
      (by decide) (by decide) rfl (Or.inl rfl),
   deploy_fatal_error_asymmetry.2.1 apiW2 false true false ⟨none, none, none, []⟩
      "g1" [cmdW2] [] errW2a rfl rfl,
   deploy_fatal_error_asymmetry.2.2 apiW2c false true false ⟨none, none, none, []⟩
      "g1" [cmdW2] [("g2", [cmdW2])] errW2c rfl (Or.inr rfl)⟩

/-- C3: bulk mode never partially fails. If the single overwrite call of a
target fails, deploySingleDestination rethrows the error and produces no
per-command outcome at all, for every command list, and when the guild loop
records a result for such a target its entry is a lone bulk-error with empty
commands, skipped and errored lists, whatever the length of the list. -/
theorem bulk_failure_single_bulkError :
    (∀ (api : Api) (commands : List CommandDefinition) (force : Bool)
        (guildId : Option String) (e : ApiError),
      api.overwriteCommands guildId commands = .error e →
      deploySingleDestination api commands force true false guildId
        = (.error e, [.overwrite guildId commands])) ∧
    (∀ (api : Api) (commands : List CommandDefinition) (force : Bool)
        (response : DeployResponse) (guildId : String)
        (rest : List (String × List CommandDefinition)) (e : ApiError),
      api.overwriteCommands (some guildId) commands = .error e →
      e.status ≠ 401 →
      deployGuilds api force true false response ((guildId, commands) :: rest)
        = ((deployGuilds api force true false
             { response with guilds := setGuild response.guilds guildId ⟨some e, [], [], []⟩ }
             rest).1,
           ApiCall.overwrite (some guildId) commands ::
           (deployGuilds api force true false
             { response with guilds := setGuild response.guilds guildId ⟨some e, [], [], []⟩ }
             rest).2)) := by
  constructor
  · intro api commands force guildId e h
    simp only [deploySingleDestination, h]
    simp
  · intro api commands force response guildId rest e h hs
    have hd : (deploySingleDestination api commands force true false (some guildId)).1
        = .error e := by
      simp only [deploySingleDestination, h]
      simp
    have hs' : (e.status == 401) = false := by simpa using hs
    simp only [deployGuilds, hd, hs']
    have ht : (deploySingleDestination api commands force true false (some guildId)).2
        = [.overwrite (some guildId) commands] := by
      simp only [deploySingleDestination, h]
      simp
    rw [ht]
    simp

/-- C3 witness: a failing bulk overwrite of a two-command list rethrown by
deploySingleDestination, and the guild loop recording the lone bulk-error
entry for that guild. -/
theorem bulk_failure_single_bulkError_witness :
    deploySingleDestination apiW3 [cmdW3, cmdW3] false true false none
      = (.error errW3, [.overwrite none [cmdW3, cmdW3]]) ∧
    deployGuilds apiW3 false true false ⟨none, none, none, []⟩ [("g1", [cmdW3, cmdW3])]
      = ((deployGuilds apiW3 false true false
           { (⟨none, none, none, []⟩ : DeployResponse) with
              guilds := setGuild (⟨none, none, none, []⟩ : DeployResponse).guilds "g1"
                ⟨some errW3, [], [], []⟩ }
           []).1,
         ApiCall.overwrite (some "g1") [cmdW3, cmdW3] ::
         (deployGuilds apiW3 false true false
           { (⟨none, none, none, []⟩ : DeployResponse) with
              guilds := setGuild (⟨none, none, none, []⟩ : DeployResponse).guilds "g1"
                ⟨some errW3, [], [], []⟩ }
           []).2) :=
  ⟨bulk_failure_single_bulkError.1 apiW3 [cmdW3, cmdW3] false none errW3 rfl,
   bulk_failure_single_bulkError.2 apiW3 [cmdW3, cmdW3] false ⟨none, none, none, []⟩
     "g1" [] errW3 rfl (by decide)⟩

/-- C9: a target-fatal create failure discards the partial progress of the
incremental loop. Whatever was already accumulated as created, errored or
skipped, a create failure with status 401, 403 or 404 makes the loop return
just the thrown error, with no partial per-command outcome and no further
call, and when the guild loop then records an entry for that target at all it
is a lone bulk-error with empty commands, skipped and errored lists. -/
theorem fatal_discards_partial_progress :
    (∀ (api : Api) (guildId : Option String) (force : Bool)
        (existingCommands : List APIApplicationCommand) (command : CommandDefinition)
        (rest : List CommandDefinition) (added : List APIApplicationCommand)
        (errored : List ErroredCommand) (skipped : List SkippedCommand) (e : ApiError),
      findExistingEqual force existingCommands command = none →
      api.createCommand guildId command = .error e →
      (e.status = 401 ∨ e.status = 403 ∨ e.status = 404) →
      deployLoop api guildId force existingCommands (command :: rest) added errored skipped
        = (.error e, [.create guildId command])) ∧
    (∀ (api : Api) (force : Bool) (response : DeployResponse) (guildId : String)
        (guildCommands : List CommandDefinition)
        (rest : List (String × List CommandDefinition)) (e : ApiError),
      (deploySingleDestination api guildCommands force false false (some guildId)).1
        = .error e →
      (e.status = 403 ∨ e.status = 404) →
      deployGuilds api force false false response ((guildId, guildCommands) :: rest)
        = ((deployGuilds api force false false
              { response with guilds := setGuild response.guilds guildId ⟨some e, [], [], []⟩ }
              rest).1,
           (deploySingleDestination api guildCommands force false false (some guildId)).2 ++
           (deployGuilds api force false false
              { response with guilds := setGuild response.guilds guildId ⟨some e, [], [], []⟩ }
              rest).2)) := by
  constructor
  · intro api guildId force existingCommands command rest added errored skipped e hf hc hs
    have hs' : (e.status == 401 || e.status == 403 || e.status == 404) = true := by
      rcases hs with h | h | h <;> simp [h]
    simp only [deployLoop, hf, hc, hs']
    simp
  · intro api force response guildId guildCommands rest e hd hs
    have hs' : (e.status == 401) = false := by
      rcases hs with h | h <;> simp [h]
    simp only [deployGuilds, hd, hs']
    simp

/-- C9 witness: a 403 create failure in a loop that had already accumulated a
created command and a skipped entry returns just the error with only the one
create call traced, and the guild loop records the lone bulk-error entry. -/
theorem fatal_discards_partial_progress_witness :
    deployLoop apiW9 none true [] [cmdW9b] [remW9] [] [skW9]
      = (.error errW9, [.create none cmdW9b]) ∧
    deployGuilds apiW9 true false false ⟨none, none, none, []⟩ [("g1", [cmdW9a])]
      = ((deployGuilds apiW9 true false false
            { (⟨none, none, none, []⟩ : DeployResponse) with
               guilds := setGuild (⟨none, none, none, []⟩ : DeployResponse).guilds "g1"
                 ⟨some errW9, [], [], []⟩ }
            []).1,
         (deploySingleDestination apiW9 [cmdW9a] true false false (some "g1")).2 ++
         (deployGuilds apiW9 true false false
            { (⟨none, none, none, []⟩ : DeployResponse) with
               guilds := setGuild (⟨none, none, none, []⟩ : DeployResponse).guilds "g1"
                 ⟨some errW9, [], [], []⟩ }
            []).2) :=
  ⟨fatal_discards_partial_progress.1 apiW9 none true [] cmdW9b [] [remW9] [] [skW9]
      errW9 rfl rfl (Or.inr (Or.inl rfl)),
   fatal_discards_partial_progress.2 apiW9 true ⟨none, none, none, []⟩ "g1" [cmdW9a]
      [] errW9 rfl (Or.inl rfl)⟩

theorem deployLoop_force_all_ok (api : Api) (guildId : Option String)
    (created : CommandDefinition → APIApplicationCommand) :
    ∀ (commands : List CommandDefinition) (added : List APIApplicationCommand)
      (errored : List ErroredCommand) (skipped : List SkippedCommand),
      (∀ c ∈ commands, api.createCommand guildId c = .ok (created c)) →
      deployLoop api guildId true [] commands added errored skipped
        = (.ok ⟨none, added ++ commands.map created, errored, skipped⟩,
           commands.map (ApiCall.create guildId)) := by
  intro commands
  induction commands with
  | nil =>
    intro added errored skipped _
    simp [deployLoop]
  | cons c rest ih =>
    intro added errored skipped h
    have hc : api.createCommand guildId c = .ok (created c) := h c (by simp)
    have hrest : ∀ x ∈ rest, api.createCommand guildId x = .ok (created x) := by
      intro x hx
      exact h x (by simp [hx])
    have hf : findExistingEqual true [] c = none := rfl
    simp only [deployLoop, hf, hc]
    rw [ih (added ++ [created c]) errored skipped hrest]
    simp

/-- C8: with force on and bulk and dry run off, deploySingleDestination never
fetches the existing remote commands and issues one create call for every
desired command; when the creates succeed, every command lands in the added
commands list and the skipped list is empty, even if an identical remote
command exists on the target. -/
theorem force_bypasses_fetch (api : Api) (commands : List CommandDefinition)
    (guildId : Option String) (created : CommandDefinition → APIApplicationCommand)
    (h : ∀ c ∈ commands, api.createCommand guildId c = .ok (created c)) :
    deploySingleDestination api commands true false false guildId
      = (.ok ⟨none, commands.map created, [], []⟩,
         commands.map (ApiCall.create guildId)) ∧
    ∀ route, ApiCall.list route ∉
      (deploySingleDestination api commands true false false guildId).2 := by
  have hd : deploySingleDestination api commands true false false guildId
      = deployLoop api guildId true [] commands [] [] [] := rfl
  have heq := deployLoop_force_all_ok api guildId created commands [] [] [] h
  constructor
  · rw [hd, heq]
    simp
  · intro route hmem
    rw [hd, heq] at hmem
    simp at hmem

/-- C8 witness: the force deploy of one command against an API whose fetch
would report an identical existing remote command still creates it, reports
it as added with nothing skipped, and never issues the fetch. -/
theorem force_bypasses_fetch_witness :
    (deploySingleDestination apiC8 [cmdC8] true false false none
       = (.ok ⟨none, [cmdC8].map createdC8, [], []⟩,
          [cmdC8].map (ApiCall.create none)) ∧
     ∀ route, ApiCall.list route ∉
       (deploySingleDestination apiC8 [cmdC8] true false false none).2) ∧
    apiC8.listCommands none = [createdC8 cmdC8] ∧
    commandEquals (createdC8 cmdC8) cmdC8 = true :=
  ⟨force_bypasses_fetch apiC8 [cmdC8] none createdC8
      (by intro c hc; simp at hc; subst hc; rfl),
   rfl, rfl⟩

/-- C6 counterexample: a remote string option whose autocomplete field is
absent and a desired option identical except for an explicit false
autocomplete are judged unequal by optionEquals, refuting the claim that an
absent autocomplete flag defaults to false in the comparison. -/
theorem autocomplete_absent_vs_false_counterexample :
    exO6.autocomplete = none ∧ dO6.autocomplete = some false ∧
    exO6.name = dO6.name ∧ exO6.type = dO6.type ∧
    exO6.description = dO6.description ∧ exO6.required = dO6.required ∧
    exO6.choices = dO6.choices ∧
    optionEquals exO6 dO6 = false := by
  refine ⟨rfl, rfl, rfl, rfl, rfl, rfl, rfl, ?_⟩
  simp [optionEquals, optionBaseMismatch, isChoicesOption, choicesCheck, exO6, dO6,
    CommandOption.name, CommandOption.type, CommandOption.description,
    CommandOption.required, CommandOption.autocomplete, CommandOption.name_localizations,
    CommandOption.description_localizations, locEqual]

/-- C6 amended: for two choice-bearing options the autocomplete flags must
match strictly as optional values, with no defaulting: whenever the two
autocomplete fields differ, in particular when one is absent and the other is
an explicit false, optionEquals rejects. -/
theorem autocomplete_strict_match (existing opt : CommandOption)
    (h1 : isChoicesOption existing = true) (h2 : isChoicesOption opt = true)
    (h3 : existing.autocomplete ≠ opt.autocomplete) :
    optionEquals existing opt = false := by
  have hb : (existing.autocomplete != opt.autocomplete) = true := by simpa using h3
  have hcc : choicesCheck existing opt = false := by
    simp only [choicesCheck, hb]
    simp
  simp only [optionEquals, h1, h2, hcc]
  simp

/-- C6 witness: the amended statement applied to the concrete pair of the
counterexample. -/
theorem autocomplete_strict_match_witness :
    optionEquals exO6 dO6 = false :=
  autocomplete_strict_match exO6 dO6 rfl rfl (by decide)

/-- C5 counterexample: two channel options agreeing on every common field,
one permitting the duplicated list of types zero and zero and the other the
types zero and two, are judged equal by optionEquals although the two lists
are not equal as sets, since two is permitted by only one of them; this
refutes the claimed equivalence with set equality in full generality. -/
theorem channel_types_duplicates_counterexample :
    exO5.channel_types = some [0, 0] ∧ dO5.channel_types = some [0, 2] ∧
    exO5.name = dO5.name ∧ exO5.type = dO5.type ∧
    exO5.description = dO5.description ∧ exO5.required = dO5.required ∧
    (2 : Nat) ∈ ([0, 2] : List Nat) ∧ (2 : Nat) ∉ ([0, 0] : List Nat) ∧
    optionEquals exO5 dO5 = true := by
  refine ⟨rfl, rfl, rfl, rfl, rfl, rfl, by decide, by decide, ?_⟩
  simp [optionEquals, optionBaseMismatch, isChoicesOption, isSubcommandOption,
    isChannelOption, isNumericalOption, choicesCheck, channelCheck, channelNumericTail,
    exO5, dO5, CommandOption.name, CommandOption.type, CommandOption.description,
    CommandOption.required, CommandOption.autocomplete, CommandOption.name_localizations,
    CommandOption.description_localizations, CommandOption.channel_types,
    CommandOption.min_value, CommandOption.max_value, CommandOption.choices,
    CommandOption.options, locEqual]

/-- C5 amended: for channel options agreeing on the common fields whose
permitted channel-type lists are both duplicate-free, optionEquals accepts
exactly when the two lists are equal as sets; the cardinality check plus the
one-directional containment is equivalent to two-sided set equality only
under that duplicate-freeness, which holds for lists of distinct enum
values. -/
theorem channel_types_set_equality_nodup (existing opt : CommandOption)
    (l1 l2 : List Nat)
    (ht1 : existing.type = 7) (ht2 : opt.type = 7)
    (hn : opt.name = existing.name) (hd : opt.description = existing.description)
    (hr : opt.required.getD false = existing.required.getD false)
    (hl1 : locEqual (existing.name_localizations.getD [])
      (opt.name_localizations.getD []) = true)
    (hl2 : locEqual (existing.description_localizations.getD [])
      (opt.description_localizations.getD []) = true)
    (hc1 : existing.channel_types = some l1) (hc2 : opt.channel_types = some l2)
    (hnd1 : l1.Nodup) (hnd2 : l2.Nodup) :
    (optionEquals existing opt = true ↔ ∀ x, x ∈ l1 ↔ x ∈ l2) := by
  have hbase : optionBaseMismatch existing opt = false := by
    simp [optionBaseMismatch, hn, hd, hr, hl1, hl2, ht1, ht2]
  have hcho : isChoicesOption existing = false := by simp [isChoicesOption, ht1]
  have hsub : isSubcommandOption existing = false := by simp [isSubcommandOption, ht1]
  have hch1 : isChannelOption existing = true := by simp [isChannelOption, ht1]
  have hch2 : isChannelOption opt = true := by simp [isChannelOption, ht2]
  have hnum : isNumericalOption existing = false := by simp [isNumericalOption, ht1]
  have heq : optionEquals existing opt = channelCheck existing opt := by
    cases hcc : channelCheck existing opt with
    | false =>
      simp [optionEquals, hbase, hcho, hsub, channelNumericTail, hch1, hch2, hnum, hcc]
    | true =>
      simp [optionEquals, hbase, hcho, hsub, channelNumericTail, hch1, hch2, hnum, hcc]
  rw [heq]
  simp only [channelCheck, hc1, hc2, Option.map_some']
  constructor
  · intro h
    by_cases hlen : l1.length = l2.length
    · have hbne : ((some l1.length : Option Nat) != some l2.length) = false := by
        simp [hlen]
      rw [hbne] at h
      simp only [Bool.false_eq_true, if_false, List.all_eq_true] at h
      have hsub12 : ∀ x, x ∈ l1 → x ∈ l2 := by
        intro x hx
        have := h x hx
        simpa using this
      have hfsub : l1.toFinset ⊆ l2.toFinset := by
        intro x hx
        rw [List.mem_toFinset] at hx ⊢
        exact hsub12 x hx
      have hcard : l2.toFinset.card ≤ l1.toFinset.card := by
        rw [List.toFinset_card_of_nodup hnd1, List.toFinset_card_of_nodup hnd2]
        omega
      have hfeq : l1.toFinset = l2.toFinset :=
        Finset.eq_of_subset_of_card_le hfsub hcard
      intro x
      rw [← List.mem_toFinset, ← List.mem_toFinset (l := l2), hfeq]
    · exfalso
      have hbne : ((some l1.length : Option Nat) != some l2.length) = true := by
        simpa using hlen
      rw [hbne] at h
      simp at h
  · intro hset
    have hfeq : l1.toFinset = l2.toFinset := by
      ext x
      rw [List.mem_toFinset, List.mem_toFinset]
      exact hset x
    have hlen : l1.length = l2.length := by
      rw [← List.toFinset_card_of_nodup hnd1, ← List.toFinset_card_of_nodup hnd2, hfeq]
    have hbne : ((some l1.length : Option Nat) != some l2.length) = false := by
      simp [hlen]
    rw [hbne]
    simp only [Bool.false_eq_true, if_false, List.all_eq_true]
    intro x hx
    have := (hset x).mp hx
    simpa using this

/-- C5 witness: the amended statement applied to two duplicate-free channel
options permitting the types zero and two in opposite orders, which are
therefore judged equal. -/
theorem channel_types_set_equality_witness :
    (optionEquals exW5 dW5 = true ↔
      ∀ x, x ∈ ([0, 2] : List Nat) ↔ x ∈ ([2, 0] : List Nat)) ∧
    optionEquals exW5 dW5 = true := by
  have h := channel_types_set_equality_nodup exW5 dW5 [0, 2] [2, 0]
    rfl rfl rfl rfl rfl rfl rfl rfl rfl (by decide) (by decide)
  refine ⟨h, h.mpr ?_⟩
  intro x
  constructor
  · intro hx
    rcases List.mem_cons.mp hx with h0 | hx2
    · simp [h0]
    · simp at hx2
      simp [hx2]
  · intro hx
    rcases List.mem_cons.mp hx with h2 | hx0
    · simp [h2]
    · simp at hx0
      simp [hx0]

theorem sizeOf_options_getD_lt (o : CommandOption) :
    sizeOf (o.options.getD []) < sizeOf o := by
  cases o with
  | mk n t d r nl dl ac ch os ct mn mx =>
    cases os with
    | none =>
      simp [CommandOption.options]
      try omega
    | some l =>
      simp [CommandOption.options]
      try omega

theorem find_eq_self_of_nodupBy {A : Type} (f : A -> String) (l : List A) (e : A)
    (hn : nodupBy f l = true) (he : e ∈ l) :
    l.find? (fun x => f x == f e) = some e := by
  induction l with
  | nil => cases he
  | cons x xs ih =>
    simp only [nodupBy, Bool.and_eq_true, List.all_eq_true] at hn
    obtain ⟨h1, h2⟩ := hn
    rcases List.mem_cons.mp he with rfl | hmem
    · rw [List.find?_cons_of_pos xs (by simp)]
    · rw [List.find?_cons_of_neg xs ?_]
      · exact ih h2 hmem
      · have hne := h1 e hmem
        simp only [bne_iff_ne, ne_eq] at hne
        simp only [beq_iff_eq]
        intro hcontra
        exact hne hcontra.symm

theorem lookupLoc_self (m : Loc) (k v : String)
    (hn : nodupBy Prod.fst m = true) (hm : (k, v) ∈ m) :
    lookupLoc m k = some v := by
  have h := find_eq_self_of_nodupBy Prod.fst m (k, v) hn hm
  simp only [lookupLoc]
  simp only [] at h
  rw [show (fun (p : String × String) => p.1 == k) = fun x => Prod.fst x == Prod.fst (k, v)
    from rfl]
  rw [h]
  rfl

theorem locEqual_refl (m : Loc) (hn : nodupBy Prod.fst m = true) :
    locEqual m m = true := by
  simp only [locEqual, Bool.and_eq_true, List.all_eq_true]
  refine ⟨by simp, ?_⟩
  intro p hp
  obtain ⟨k, v⟩ := p
  rw [lookupLoc_self m k v hn hp]
  simp

theorem choicesCheck_refl (o : CommandOption)
    (hn : nodupBy OptionChoice.name (o.choices.getD []) = true) :
    choicesCheck o o = true := by
  cases hc : o.choices with
  | none => simp [choicesCheck, hc]
  | some cs =>
    rw [hc] at hn
    simp only [Option.getD_some] at hn
    simp only [choicesCheck, hc, bne_self_eq_false, Bool.false_eq_true, if_false,
      List.all_eq_true]
    intro c hcmem
    rw [find_eq_self_of_nodupBy OptionChoice.name cs c hn hcmem]
    simp

theorem channelCheck_refl (o : CommandOption) : channelCheck o o = true := by
  cases hc : o.channel_types with
  | none => simp [channelCheck, hc]
  | some ts =>
    simp only [channelCheck, hc, bne_self_eq_false, Bool.false_eq_true, if_false,
      List.all_eq_true]
    intro t ht
    simpa using ht

theorem channelNumericTail_refl (o : CommandOption) : channelNumericTail o o = true := by
  simp [channelNumericTail, channelCheck_refl o]

theorem optionBaseMismatch_refl (o : CommandOption)
    (h1 : nodupBy Prod.fst (o.name_localizations.getD []) = true)
    (h2 : nodupBy Prod.fst (o.description_localizations.getD []) = true) :
    optionBaseMismatch o o = false := by
  simp [optionBaseMismatch, locEqual_refl _ h1, locEqual_refl _ h2]

mutual

theorem optionEquals_refl (o : CommandOption) (h : wfOption o = true) :
    optionEquals o o = true := by
  simp only [wfOption, Bool.and_eq_true] at h
  obtain ⟨⟨⟨hnl, hdl⟩, hch⟩, hopts⟩ := h
  have hbase := optionBaseMismatch_refl o hnl hdl
  have hcc := choicesCheck_refl o hch
  cases hsub : isSubcommandOption o with
  | false =>
    simp [optionEquals, hbase, hcc, hsub, channelNumericTail_refl o]
  | true =>
    revert hopts
    cases ho : o.options with
    | none =>
      intro _
      simp [optionEquals, hbase, hcc, hsub, ho, channelNumericTail_refl o]
    | some children =>
      intro hopts
      have hwl : wfOptionList children = true := by
        simpa using hopts
      have hparts : nodupBy CommandOption.name children = true ∧
          wfOptionAll children = true := by
        simpa [wfOptionList, Bool.and_eq_true] using hwl
      have hoe : optionsEqual children children = true := by
        have hfind : ∀ e ∈ children,
            children.find? (fun x => x.name == e.name) = some e :=
          fun e he => find_eq_self_of_nodupBy CommandOption.name children e hparts.1 he
        have hrec := optionsEqualAll_refl children children hparts.2 hfind
        simp [optionsEqual, hrec]
      simp [optionEquals, hbase, hcc, hsub, ho, hoe]
termination_by 2 * sizeOf o + 2
decreasing_by
  have h1 := sizeOf_options_getD_lt o
  simp only [ho, Option.getD_some] at h1
  omega

theorem optionsEqualAll_refl : ∀ (sub opts : List CommandOption),
    wfOptionAll sub = true →
    (∀ e ∈ sub, opts.find? (fun x => x.name == e.name) = some e) →
    optionsEqualAll sub opts = true
  | [], opts, _, _ => by simp [optionsEqualAll]
  | e :: es, opts, hwf, hfind => by
    have hparts : wfOption e = true ∧ wfOptionAll es = true := by
      simpa [wfOptionAll, Bool.and_eq_true] using hwf
    have hf := hfind e (by simp)
    have hrest : ∀ x ∈ es, opts.find? (fun y => y.name == x.name) = some x := by
      intro x hx
      exact hfind x (by simp [hx])
    simp only [optionsEqualAll, hf, Bool.and_eq_true]
    exact ⟨optionEquals_refl e hparts.1, optionsEqualAll_refl es opts hparts.2 hrest⟩
termination_by sub _ _ _ => 2 * sizeOf sub + 1
decreasing_by
  all_goals try simp
  all_goals omega

end

theorem optionsEqual_refl (l : List CommandOption) (h : wfOptionList l = true) :
    optionsEqual l l = true := by
  have hparts : nodupBy CommandOption.name l = true ∧ wfOptionAll l = true := by
    simpa [wfOptionList, Bool.and_eq_true] using h
  have hrec := optionsEqualAll_refl l l hparts.2
    (fun e he => find_eq_self_of_nodupBy CommandOption.name l e hparts.1 he)
  simp [optionsEqual, hrec]

/-- C1 counterexample: for a command definition with two same-named options
differing in description, the round-trip construction is judged unequal to
the definition itself, because the name-based lookup of the option loop finds
the first name match for both; this refutes round-trip reflexivity for every
CommandDefinition, duplicates names being the undefined-behavior case the
specification flags. -/
theorem roundtrip_duplicate_names_counterexample :
    cmdC1dup.options = some [optC1a, optC1b] ∧
    optC1a.name = optC1b.name ∧
    optC1a.description ≠ optC1b.description ∧
    commandEquals (remoteOfDefinition "10" "20" "30" cmdC1dup) cmdC1dup = false := by
  refine ⟨rfl, rfl, by decide, ?_⟩
  simp [commandEquals, remoteOfDefinition, cmdC1dup, optionsEqual, optionsEqualAll,
    optionEquals, optionBaseMismatch, locEqual, optC1a, optC1b,
    CommandOption.name, CommandOption.type, CommandOption.description,
    CommandOption.required, CommandOption.name_localizations,
    CommandOption.description_localizations, List.find?]

/-- C1: round-trip reflexivity of the command comparator: building a remote
command from a definition by applying the remote-side defaults, the type
defaulting to ChatInput and dm permission to true with all other fields
copied verbatim and no guild id, then comparing it against the definition
with commandEquals, accepts; the definition is required to be well-formed,
that is free of the duplicate option, choice and localization names that the
specification declares undefined behavior. -/
theorem commandEquals_roundtrip (id applicationId version : String)
    (command : CommandDefinition) (h : wfCommandDefinition command = true) :
    commandEquals (remoteOfDefinition id applicationId version command) command = true := by
  simp only [wfCommandDefinition, Bool.and_eq_true] at h
  obtain ⟨⟨hnl, hdl⟩, hopts⟩ := h
  have hlr1 := locEqual_refl _ hnl
  have hlr2 := locEqual_refl _ hdl
  revert hopts
  cases hco : command.options with
  | none =>
    intro _
    cases hdesc : command.description with
    | none => simp [commandEquals, remoteOfDefinition, hco, hdesc, hlr1, hlr2]
    | some d => simp [commandEquals, remoteOfDefinition, hco, hdesc, hlr1, hlr2]
  | some l =>
    intro hopts
    have hwl : wfOptionList l = true := by
      simpa using hopts
    have hoe := optionsEqual_refl l hwl
    cases hdesc : command.description with
    | none => simp [commandEquals, remoteOfDefinition, hco, hdesc, hlr1, hlr2, hoe]
    | some d => simp [commandEquals, remoteOfDefinition, hco, hdesc, hlr1, hlr2, hoe]

/-- C1 witness: the round trip applied to a concrete definition carrying an
option with choices, required flag and localization maps. -/
theorem commandEquals_roundtrip_witness :
    wfCommandDefinition cmdC1 = true ∧
    commandEquals (remoteOfDefinition "10" "20" "30" cmdC1) cmdC1 = true := by
  have hwf : wfCommandDefinition cmdC1 = true := by
    simp [wfCommandDefinition, wfOptionList, wfOptionAll, wfOption, nodupBy, cmdC1, optC1,
      CommandOption.name_localizations, CommandOption.description_localizations,
      CommandOption.choices, CommandOption.options, CommandOption.name, OptionChoice.name]
  exact ⟨hwf, commandEquals_roundtrip "10" "20" "30" cmdC1 hwf⟩

end DeployInt

